import Mathlib

/-!
Verification of the AutoSEO repository: the sitemap URL extractor
(parse_sitemap.py) and the Baidu / Bing URL submission adapters
(submit_baidu.py, submit_bing.py, and the Baidu submission embedded in
parse_sitemap.py).

Strings are modelled by Lean `String` / `List Char`; the Python string
primitives used by the code (strip, split, replace, slicing, urlencode,
json.dumps) are given executable char-list definitions below.  Network
effects are modelled by an explicit fetch oracle `String → Except String
SitemapDoc` for the extractor, and by passing the would-be HTTP response
as data to the adapters; every adapter returns the list of emitted log
lines together with the HTTP request it issued, if any.
-/

/-- Python `str.strip()` (parse_sitemap.py line 174, submit_baidu.py
lines 85 and 111 and 118, submit_bing.py lines 83 and 97): drop leading and
trailing whitespace. -/
def pyStrip (l : List Char) : List Char :=
  ((l.dropWhile Char.isWhitespace).reverse.dropWhile Char.isWhitespace).reverse

/-- Split a character list at every character satisfying `p`, keeping empty
pieces; `splitWhen (fun c => c = sep)` is Python `str.split(sep)`. -/
def splitWhen (p : Char → Bool) : List Char → List (List Char)
  | [] => [[]]
  | c :: rest =>
    if p c then [] :: splitWhen p rest
    else
      match splitWhen p rest with
      | [] => [[c]]
      | piece :: more => (c :: piece) :: more

/-- Python `str.split()` with no argument (parse_sitemap.py line 202):
maximal runs of non-whitespace characters. -/
def whitespaceTokens (l : List Char) : List (List Char) :=
  (splitWhen Char.isWhitespace l).filter (fun p => p ≠ [])

/-- Python `str.replace(pat, rep)` on char lists, fuelled (the fuel is the
input length, which bounds the number of steps): replace each
non-overlapping occurrence of `pat`, scanning left to right.  Used only
with a nonempty `pat` (the code replaces a credential that was checked to
be nonempty). -/
def pyReplaceL (pat rep : List Char) : Nat → List Char → List Char
  | 0, l => l
  | fuel + 1, l =>
    if pat ≠ [] ∧ List.isPrefixOf pat l then
      rep ++ pyReplaceL pat rep fuel (List.drop pat.length l)
    else
      match l with
      | [] => []
      | c :: rest => c :: pyReplaceL pat rep fuel rest

/-- Python `s.replace(pat, rep)` on strings (submit_baidu.py lines 107 and
140, submit_bing.py line 93, parse_sitemap.py line 191). -/
def pyReplace (s pat rep : String) : String :=
  String.mk (pyReplaceL pat.toList rep.toList s.toList.length s.toList)

/-- Does `pat` occur as a contiguous substring of the list? -/
def listContainsSub (pat : List Char) : List Char → Bool
  | [] => pat.isEmpty
  | c :: rest => List.isPrefixOf pat (c :: rest) || listContainsSub pat rest

/-- Does `pat` occur as a contiguous substring of `s`?  (Python `pat in s`.) -/
def strContainsSub (s pat : String) : Bool :=
  listContainsSub pat.toList s.toList

/-- Python `str.rstrip('/')` (submit_baidu.py line 92). -/
def dropTrailingSlashes (l : List Char) : List Char :=
  (l.reverse.dropWhile (fun c => c = '/')).reverse

/-- Scheme removal of submit_baidu.py lines 87-90: drop a leading
`https://`, else a leading `http://`, else leave unchanged. -/
def stripScheme (l : List Char) : List Char :=
  if List.isPrefixOf ("https://".toList) l then l.drop 8
  else if List.isPrefixOf ("http://".toList) l then l.drop 7
  else l

/-- Site normalization of submit_baidu.py lines 85-92: strip, remove one
leading scheme, remove trailing slashes. -/
def submitBaiduNormalizeSite (s : String) : String :=
  String.mk (dropTrailingSlashes (stripScheme (pyStrip s.toList)))

/-- Site normalization of parse_sitemap.py lines 174-176 and
submit_bing.py lines 83-85: strip, then prepend `https://` when the value
starts with neither `http://` nor `https://`. -/
def prependHttpsIfMissing (s : String) : String :=
  let t := pyStrip s.toList
  if List.isPrefixOf ("http://".toList) t || List.isPrefixOf ("https://".toList) t then
    String.mk t
  else
    String.mk ("https://".toList ++ t)

/-- Uppercase hexadecimal digit for percent-encoding. -/
def hexUpperDigit (n : Nat) : Char :=
  if n < 10 then Char.ofNat (48 + n) else Char.ofNat (55 + n)

/-- Lowercase hexadecimal digit for JSON `\u00..` escapes. -/
def hexLowerDigit (n : Nat) : Char :=
  if n < 10 then Char.ofNat (48 + n) else Char.ofNat (87 + n)

/-- UTF-8 bytes of a character, used by percent-encoding. -/
def utf8Bytes (c : Char) : List Nat :=
  let n := c.toNat
  if n < 128 then [n]
  else if n < 2048 then [192 + n / 64, 128 + n % 64]
  else if n < 65536 then [224 + n / 4096, 128 + n / 64 % 64, 128 + n % 64]
  else [240 + n / 262144, 128 + n / 4096 % 64, 128 + n / 64 % 64, 128 + n % 64]

/-- Python `urllib.parse.quote_plus` on one character: keep ASCII
alphanumerics and `_ . - ~`, map space to `+`, percent-encode everything
else byte by byte. -/
def pyQuotePlusChar (c : Char) : List Char :=
  if (c.isAlphanum ∧ c.toNat < 128) ∨ c = '_' ∨ c = '.' ∨ c = '-' ∨ c = '~' then [c]
  else if c = ' ' then ['+']
  else (utf8Bytes c).flatMap (fun b => ['%', hexUpperDigit (b / 16), hexUpperDigit (b % 16)])

/-- Python `urllib.parse.quote_plus` on a string. -/
def pyQuotePlus (s : String) : String :=
  String.mk (s.toList.flatMap pyQuotePlusChar)

/-- The query string built by `urllib.parse.urlencode` from the params
dict with keys `site` and `token`, in that insertion order
(submit_baidu.py lines 95-101, parse_sitemap.py lines 179-185). -/
def urlencodeSiteToken (site token : String) : String :=
  "site=" ++ pyQuotePlus site ++ "&token=" ++ pyQuotePlus token

/-- JSON escaping of one character, as `json.dumps` with
`ensure_ascii=False` performs it. -/
def jsonEscapeChar (c : Char) : List Char :=
  if c = '"' then ['\\', '"']
  else if c = '\\' then ['\\', '\\']
  else if c = '\n' then ['\\', 'n']
  else if c = '\r' then ['\\', 'r']
  else if c = '\t' then ['\\', 't']
  else if c.toNat = 8 then ['\\', 'b']
  else if c.toNat = 12 then ['\\', 'f']
  else if c.toNat < 32 then ['\\', 'u', '0', '0', hexLowerDigit (c.toNat / 16), hexLowerDigit (c.toNat % 16)]
  else [c]

/-- A JSON string literal. -/
def jsonStr (s : String) : String :=
  "\"" ++ String.mk (s.toList.flatMap jsonEscapeChar) ++ "\""

/-- The compact `json.dumps` serialization, with `ensure_ascii=False`, of
the object carrying `siteUrl` and `urlList` (submit_bing.py line 121). -/
def jsonDumpsCompact (site : String) (urls : List String) : String :=
  "\x7b\"siteUrl\": " ++ jsonStr site ++ ", \"urlList\": [" ++
    String.intercalate ", " (urls.map jsonStr) ++ "]\x7d"

/-- The `indent=2` `json.dumps` serialization, with `ensure_ascii=False`,
of the object carrying `siteUrl` and `urlList` (submit_bing.py
line 117). -/
def jsonDumpsIndent (site : String) (urls : List String) : String :=
  "\x7b\n  \"siteUrl\": " ++ jsonStr site ++ ",\n  \"urlList\": " ++
    (if urls.isEmpty then "[]"
     else "[\n    " ++ String.intercalate ",\n    " (urls.map jsonStr) ++ "\n  ]") ++
    "\n\x7d"

/-- Credential masking (submit_baidu.py line 82, submit_bing.py line 80,
parse_sitemap.py line 171): `token[:4] + "***" + token[-4:]` when the
length exceeds 8, else `"***"`. -/
def mask_token (token : String) : String :=
  if 8 < token.length then
    String.mk (token.toList.take 4) ++ "***" ++ String.mk (token.toList.drop (token.length - 4))
  else "***"

/-- `'\n'.join(urls_list)` (submit_baidu.py line 130). -/
def joinNewline (l : List String) : String :=
  String.intercalate "\n" l

/-- Log severities used by the scripts. -/
inductive LogLevel
  | info
  | warning
  | error
  | debug
deriving DecidableEq

/-- One emitted log line: severity and message. -/
abbrev LogEntry := LogLevel × String

/-- The data of an HTTP response as the adapters consume it. -/
structure HttpResponse where
  status : Nat
  body : String
deriving DecidableEq

/-- A sitemap document as BeautifulSoup exposes it to the code: for every
`<url>` element the text of its first `<loc>` descendant (if any), in
document order, and likewise for every `<sitemap>` element.  A fetched
body that is not parseable XML yields a document with no entries, matching
the lenient parser. -/
structure SitemapDoc where
  urlEntries : List (Option String)
  sitemapEntries : List (Option String)
deriving DecidableEq

/-- parse_sitemap.py lines 88-91 and 113-116: collect `loc` text of every
`url` element that has one, in document order. -/
def extractUrlLocs (d : SitemapDoc) : List String :=
  d.urlEntries.filterMap id

/-- Result of one run of the extractor: the returned URL list, the emitted
log lines, and the URLs passed to `requests.get`, in order. -/
structure ExtractResult where
  urls : List String
  logs : List LogEntry
  fetched : List String
deriving DecidableEq

/-- The error line of parse_sitemap.py line 119 for a failed child fetch. -/
def childErrorLog (c e : String) : LogEntry :=
  (LogLevel.error, "处理子sitemap出错: " ++ c ++ ", 错误: " ++ e)

/-- parse_sitemap.py lines 98-119: iterate over the child sitemap URLs of
an index document; fetch each child, append the `url/loc` entries of
children that fetch successfully, log and skip children whose fetch
raises (the error line only under `verbose`).  Returns collected URLs,
log lines, and the fetch trace. -/
def processChildren (fetch : String → Except String SitemapDoc) (verbose : Bool) :
    List String → List String × List LogEntry × List String
  | [] => ([], [], [])
  | c :: cs =>
    let hd := if verbose then [(LogLevel.info, "正在处理子sitemap: " ++ c)] else []
    let rest := processChildren fetch verbose cs
    match fetch c with
    | Except.ok d => (extractUrlLocs d ++ rest.1, hd ++ rest.2.1, c :: rest.2.2)
    | Except.error e =>
      (rest.1, hd ++ (if verbose then [childErrorLog c e] else []) ++ rest.2.1, c :: rest.2.2)

/-- The count line of parse_sitemap.py line 122. -/
def countLogMsg (n : Nat) : String :=
  "从sitemap中提取到 " ++ toString n ++ " 个URL"

/-- parse_sitemap.py lines 62-128, `get_sitemap_urls`: fetch the sitemap;
on any fetch error log and return no URLs (the outer `except` catches
everything).  Otherwise collect `url/loc` entries; when there are none,
treat the document as a sitemap index and resolve each `sitemap/loc`
child one level deep via `processChildren`. -/
def get_sitemap_urls (fetch : String → Except String SitemapDoc)
    (sitemap_url : String) (verbose : Bool) : ExtractResult :=
  let startLogs := if verbose then [(LogLevel.info, "正在获取sitemap: " ++ sitemap_url)] else []
  match fetch sitemap_url with
  | Except.error e =>
    { urls := []
      logs := startLogs ++ [(LogLevel.error, "解析sitemap时出错: " ++ e)]
      fetched := [sitemap_url] }
  | Except.ok doc =>
    let urls0 := extractUrlLocs doc
    if urls0.isEmpty then
      let idxLog := if verbose then [(LogLevel.info, "未找到URL，检查是否为sitemap索引...")] else []
      let r := processChildren fetch verbose (doc.sitemapEntries.filterMap id)
      let countLog := if verbose then [(LogLevel.info, countLogMsg r.1.length)] else []
      { urls := r.1
        logs := startLogs ++ idxLog ++ r.2.1 ++ countLog
        fetched := sitemap_url :: r.2.2 }
    else
      let countLog := if verbose then [(LogLevel.info, countLogMsg urls0.length)] else []
      { urls := urls0, logs := startLogs ++ countLog, fetched := [sitemap_url] }

/-- parse_sitemap.py lines 140-142, `save_urls_to_file`: the file content
produced by writing each URL followed by a newline. -/
def save_urls_content (urls : List String) : List Char :=
  urls.flatMap (fun u => u.toList ++ ['\n'])

/-- How both adapters turn file content into a URL list: split into lines,
strip each line, keep the non-blank ones (submit_bing.py line 97,
submit_baidu.py line 118). -/
def adapterReadLines (content : List Char) : List String :=
  (((splitWhen (fun c => c = '\n') content).map pyStrip).filter (fun p => p ≠ [])).map String.mk

/-- submit_baidu.py lines 111-118: the whole content is stripped before
being split into lines. -/
def baiduReadLines (content : List Char) : List String :=
  adapterReadLines (pyStrip content)

/-- Model of `random.sample(l, k)` (submit_baidu.py line 124) with the
randomness abstracted into an oracle `rand`: draw `k` elements at
pairwise distinct positions, removing each drawn position before the next
draw. -/
def randomSample {α : Type} (rand : Nat → Nat) : List α → Nat → List α
  | _, 0 => []
  | l, k + 1 =>
    if h : 0 < l.length then
      let i := rand k % l.length
      l.get ⟨rand k % l.length, Nat.mod_lt _ h⟩ :: randomSample rand (l.eraseIdx i) k
    else []

/-- submit_baidu.py lines 121-128: sample only when `random_count > 0` and
the list is strictly longer than `random_count`; otherwise keep the full
list. -/
def baiduSelectUrls {α : Type} (rand : Nat → Nat) (random_count : Nat)
    (urls_list : List α) : List α :=
  if 0 < random_count then
    if random_count < urls_list.length then randomSample rand urls_list random_count
    else urls_list
  else urls_list

/-- The info lines of submit_baidu.py lines 125 and 127 accompanying the
sampling decision for an original list of length `n`. -/
def baiduSampleLogs (random_count n : Nat) : List LogEntry :=
  if 0 < random_count then
    if random_count < n then
      [(LogLevel.info, "随机选择模式: 从 " ++ toString n ++ " 个URL中随机选择了 " ++
        toString random_count ++ " 个")]
    else
      [(LogLevel.info, "随机选择模式: URL总数(" ++ toString n ++ ")不超过" ++
        toString random_count ++ "个，将全部提交")]
  else []

/-- The Baidu push endpoint URL with its query string (submit_baidu.py
line 102, parse_sitemap.py line 186). -/
def baiduApiUrl (site token : String) : String :=
  "http://data.zz.baidu.com/urls?" ++ urlencodeSiteToken site token

/-- The POST request submit_to_baidu issues: the structured query
parameters and the final URL and plain-text body. -/
structure BaiduRequest where
  site : String
  token : String
  url : String
  body : String
deriving DecidableEq

/-- The POST request submit_to_bing issues: the final URL, the structured
payload, and the serialized JSON body. -/
structure BingRequest where
  url : String
  siteUrl : String
  urlList : List String
  body : String
deriving DecidableEq

/-- What one adapter invocation is observed to do: the emitted log lines
in order, and the HTTP request issued, if any. -/
structure AdapterOutcome (Req : Type) where
  logs : List LogEntry
  request : Option Req
deriving DecidableEq

/-- submit_baidu.py lines 60-155, `submit_to_baidu`.  The URL-list file is
modelled as `Option String` (`none` for a missing file); `resp` is the
response the endpoint would return were the request issued. -/
def submit_to_baidu (rand : Nat → Nat) (site_url token urls_file : String)
    (fileContent : Option String) (verbose : Bool) (random_count : Nat)
    (resp : HttpResponse) : AdapterOutcome BaiduRequest :=
  if site_url = "" ∨ token = "" ∨ urls_file = "" then
    { logs := [(LogLevel.error, "提交URL到百度时出错: site_url、token和urls_file不能为空")]
      request := none }
  else
    match fileContent with
    | none =>
      { logs := [(LogLevel.error, "提交URL到百度时出错: URL文件不存在: " ++ urls_file)]
        request := none }
    | some content =>
      let masked := mask_token token
      let site := submitBaiduNormalizeSite site_url
      let api_url := baiduApiUrl site token
      let vlogs1 := if verbose then
          [(LogLevel.info, "正在提交URL到百度API (Token: " ++ masked ++ ")"),
           (LogLevel.info, "站点URL: " ++ site),
           (LogLevel.info, "API URL: " ++ pyReplace api_url token masked)] else []
      let stripped := pyStrip content.toList
      if stripped.isEmpty then
        { logs := vlogs1 ++ [(LogLevel.warning, "URL文件为空，没有URL可以提交")]
          request := none }
      else
        let urls_list0 := adapterReadLines stripped
        let urls_list := baiduSelectUrls rand random_count urls_list0
        let urls_data := joinNewline urls_list
        let vlogs2 := if verbose then
            [(LogLevel.info, "提交的URL数量: " ++ toString urls_list.length),
             (LogLevel.info, "正在发送请求到百度API..."),
             (LogLevel.info, "请求URL: " ++ pyReplace api_url token masked),
             (LogLevel.info, "请求头: \x7b\x27Content-Type\x27: \x27text/plain\x27\x7d"),
             (LogLevel.info, "请求体 (URLs):\n" ++ urls_data)] else []
        let respLog := if resp.status = 200 then
            (LogLevel.info, "成功提交URL到百度: " ++ resp.body)
          else
            (LogLevel.error, "提交URL到百度失败: HTTP " ++ toString resp.status ++ " - " ++ resp.body)
        { logs := vlogs1 ++ baiduSampleLogs random_count urls_list0.length ++ vlogs2 ++ [respLog]
          request := some { site := site, token := token, url := api_url, body := urls_data } }

/-- parse_sitemap.py lines 154-216, the `submit_to_baidu` variant embedded
in the extractor script: it prepends `https://` instead of stripping the
scheme, does not pre-check the file, performs no empty-file check and no
sampling, and posts the raw file content. -/
def ps_submit_to_baidu (site_url token urls_file : String)
    (fileContent : Option String) (verbose : Bool)
    (resp : HttpResponse) : AdapterOutcome BaiduRequest :=
  if site_url = "" ∨ token = "" ∨ urls_file = "" then
    { logs := [(LogLevel.error, "提交URL到百度时出错: site_url、token和urls_file不能为空")]
      request := none }
  else
    let masked := mask_token token
    let site := prependHttpsIfMissing site_url
    let api_url := baiduApiUrl site token
    let vlogs1 := if verbose then
        [(LogLevel.info, "正在提交URL到百度API (Token: " ++ masked ++ ")"),
         (LogLevel.info, "站点URL: " ++ site),
         (LogLevel.info, "API URL: " ++ pyReplace api_url token masked)] else []
    match fileContent with
    | none =>
      { logs := vlogs1 ++ [(LogLevel.error,
          "提交URL到百度时出错: [Errno 2] No such file or directory: \x27" ++ urls_file ++ "\x27")]
        request := none }
    | some content =>
      let vlogs2 := if verbose then
          [(LogLevel.info, "提交的URL数量: " ++ toString (whitespaceTokens content.toList).length),
           (LogLevel.info, "正在发送请求到百度API...")] else []
      let respLog := if resp.status = 200 then
          (LogLevel.info, "成功提交URL到百度: " ++ resp.body)
        else
          (LogLevel.error, "提交URL到百度失败: HTTP " ++ toString resp.status ++ " - " ++ resp.body)
      { logs := vlogs1 ++ vlogs2 ++ [respLog]
        request := some { site := site, token := token, url := api_url, body := content } }

/-- The Bing batch-submission endpoint URL (submit_bing.py line 88); note
the key is interpolated unencoded. -/
def bingApiUrl (api_key : String) : String :=
  "https://ssl.bing.com/webmaster/api.svc/json/SubmitUrlbatch?apikey=" ++ api_key

/-- submit_bing.py lines 59-133, `submit_to_bing`. -/
def submit_to_bing (site_url api_key urls_file : String)
    (fileContent : Option String) (verbose : Bool)
    (resp : HttpResponse) : AdapterOutcome BingRequest :=
  if site_url = "" ∨ api_key = "" ∨ urls_file = "" then
    { logs := [(LogLevel.error, "提交URL到必应时出错: site_url、api_key和urls_file不能为空")]
      request := none }
  else
    match fileContent with
    | none =>
      { logs := [(LogLevel.error, "提交URL到必应时出错: URL文件不存在: " ++ urls_file)]
        request := none }
    | some content =>
      let masked := mask_token api_key
      let site := prependHttpsIfMissing site_url
      let api_url := bingApiUrl api_key
      let vlogs1 := if verbose then
          [(LogLevel.info, "正在提交URL到必应API (API Key: " ++ masked ++ ")"),
           (LogLevel.info, "站点URL: " ++ site),
           (LogLevel.info, "API URL: " ++ pyReplace api_url api_key masked)] else []
      let urls := adapterReadLines content.toList
      if urls.isEmpty then
        { logs := vlogs1 ++ [(LogLevel.warning, "URL文件为空，没有URL可以提交")]
          request := none }
      else
        let vlogs2 := if verbose then
            [(LogLevel.info, "提交的URL数量: " ++ toString urls.length),
             (LogLevel.info, "正在发送请求到必应API..."),
             (LogLevel.debug, "请求体: " ++ jsonDumpsIndent site urls)] else []
        let respLog := if resp.status = 200 then
            (LogLevel.info, "成功提交URL到必应: " ++ resp.body)
          else
            (LogLevel.error, "提交URL到必应失败: HTTP " ++ toString resp.status ++ " - " ++ resp.body)
        { logs := vlogs1 ++ vlogs2 ++ [respLog]
          request := some { url := api_url, siteUrl := site, urlList := urls,
                            body := jsonDumpsCompact site urls } }

/-- The argparse default of the `--random` flag of submit_baidu.py
line 170. -/
def submitBaiduCliRandomDefault : Nat := 10

/-- The default of the `random_count` parameter in the signature of
`submit_to_baidu` (submit_baidu.py line 60). -/
def submitToBaiduRandomCountDefault : Nat := 0

/-! ## Supporting lemmas -/

theorem flatMap_congr {α β : Type} {l : List α} {f g : α → List β}
    (h : ∀ a ∈ l, f a = g a) : l.flatMap f = l.flatMap g := by
  induction l with
  | nil => rfl
  | cons a t ih =>
    simp only [List.flatMap_cons]
    rw [h a (List.mem_cons_self a t), ih fun b hb => h b (List.mem_cons_of_mem a hb)]

/-- The URLs collected from the children are the concatenation, in order,
of the extracted URLs of each child whose fetch succeeds. -/
theorem processChildren_urls (fetch : String → Except String SitemapDoc)
    (v : Bool) (cs : List String) :
    (processChildren fetch v cs).1 =
      cs.flatMap (fun c =>
        match fetch c with
        | Except.ok d => extractUrlLocs d
        | Except.error _ => []) := by
  induction cs with
  | nil => rfl
  | cons c t ih =>
    simp only [processChildren, List.flatMap_cons]
    cases fetch c <;> simp [ih]

/-- Every child URL, and only the child URLs, are fetched during index
resolution, in order. -/
theorem processChildren_fetched (fetch : String → Except String SitemapDoc)
    (v : Bool) (cs : List String) :
    (processChildren fetch v cs).2.2 = cs := by
  induction cs with
  | nil => rfl
  | cons c t ih =>
    simp only [processChildren]
    cases fetch c <;> simp [ih]

/-- Under verbose mode a failing child leaves its error line in the log. -/
theorem processChildren_error_logged (fetch : String → Except String SitemapDoc)
    (cs : List String) (c e : String) (hc : c ∈ cs) (he : fetch c = Except.error e) :
    childErrorLog c e ∈ (processChildren fetch true cs).2.1 := by
  induction cs with
  | nil => cases hc
  | cons a t ih =>
    rcases List.mem_cons.mp hc with rfl | hmem
    · simp only [processChildren, he]
      simp
    · simp only [processChildren]
      cases fetch a <;> simp [ih hmem]

/-! ## C1 and C2: extraction from a sitemap index and from a urlset -/

/-- C1: for a sitemap-index document (one with no `url/loc` entries) whose
`sitemap/loc` children all fetch successfully, extraction returns the
concatenation of the URL lists of the children in the order the `sitemap`
elements appear; the fetch trace is exactly the index followed by its
children, so a child that is itself an index contributes no URLs and its
own `sitemap/loc` entries are never fetched. -/
theorem sitemap_index_single_level
    (fetch : String → Except String SitemapDoc) (u : String) (verbose : Bool)
    (doc : SitemapDoc) (cs : List String) (docOf : String → SitemapDoc)
    (hf : fetch u = Except.ok doc)
    (hleaf : extractUrlLocs doc = [])
    (hcs : doc.sitemapEntries.filterMap id = cs)
    (hchild : ∀ c ∈ cs, fetch c = Except.ok (docOf c)) :
    (get_sitemap_urls fetch u verbose).urls = cs.flatMap (fun c => extractUrlLocs (docOf c)) ∧
    (get_sitemap_urls fetch u verbose).fetched = u :: cs ∧
    ∀ g, g ∉ u :: cs → g ∉ (get_sitemap_urls fetch u verbose).fetched := by
  have hres : (get_sitemap_urls fetch u verbose).urls =
      cs.flatMap (fun c => extractUrlLocs (docOf c)) := by
    unfold get_sitemap_urls
    rw [hf]
    simp only [hleaf, List.isEmpty_nil, if_true, hcs, processChildren_urls]
    exact flatMap_congr fun c hc => by rw [hchild c hc]
  have htr : (get_sitemap_urls fetch u verbose).fetched = u :: cs := by
    unfold get_sitemap_urls
    rw [hf]
    simp only [hleaf, List.isEmpty_nil, if_true, hcs, processChildren_fetched]
  exact ⟨hres, htr, fun g hg => by rw [htr]; exact hg⟩

/-- Fetch oracle for the C1 witness: `"i"` is an index with children
`"c1"` (a leaf with two URLs) and `"c2"` (itself an index pointing at
`"g"`). -/
def c1Fetch : String → Except String SitemapDoc := fun s =>
  if s = "i" then Except.ok ⟨[], [some "c1", some "c2"]⟩
  else if s = "c1" then Except.ok ⟨[some "a", some "b"], []⟩
  else Except.ok ⟨[], [some "g"]⟩

/-- The child documents of the C1 witness. -/
def c1DocOf : String → SitemapDoc := fun c =>
  if c = "c1" then ⟨[some "a", some "b"], []⟩ else ⟨[], [some "g"]⟩

/-- C1 witness: a concrete index; the second child is itself an index (no
`url` entries, one `sitemap` entry `"g"`), contributes nothing, and `"g"`
is never fetched. -/
theorem sitemap_index_single_level_witness :
    (∀ c ∈ ["c1", "c2"], c1Fetch c = Except.ok (c1DocOf c)) ∧
    (get_sitemap_urls c1Fetch "i" false).urls =
      List.flatMap ["c1", "c2"] (fun c => extractUrlLocs (c1DocOf c)) ∧
    (get_sitemap_urls c1Fetch "i" false).fetched = ["i", "c1", "c2"] := by
  have hchild : ∀ c ∈ ["c1", "c2"], c1Fetch c = Except.ok (c1DocOf c) := by
    intro c hc
    rcases List.mem_cons.mp hc with rfl | hc
    · rfl
    · rcases List.mem_cons.mp hc with rfl | hc
      · rfl
      · cases hc
  have h := sitemap_index_single_level c1Fetch "i" false
    ⟨[], [some "c1", some "c2"]⟩ ["c1", "c2"] c1DocOf
    rfl rfl (by decide) hchild
  exact ⟨hchild, h.1, h.2.1⟩

/-- C2: for a well-formed urlset document (every `url` element carries a
`loc`, no `sitemap` elements) the extractor returns exactly the `loc`
texts, in document order. -/
theorem urlset_extraction
    (fetch : String → Except String SitemapDoc) (u : String) (verbose : Bool)
    (doc : SitemapDoc) (locs : List String)
    (hf : fetch u = Except.ok doc)
    (hurls : doc.urlEntries = locs.map some)
    (hidx : doc.sitemapEntries = []) :
    (get_sitemap_urls fetch u verbose).urls = locs ∧
    (get_sitemap_urls fetch u verbose).urls.length = locs.length := by
  have hext : extractUrlLocs doc = locs := by
    simp [extractUrlLocs, hurls, List.filterMap_map]
  have hmain : (get_sitemap_urls fetch u verbose).urls = locs := by
    unfold get_sitemap_urls
    rw [hf]
    cases locs with
    | nil =>
      simp only [hext, List.isEmpty_nil, if_true, hidx]
      simp [processChildren]
    | cons a t =>
      simp [hext]
  exact ⟨hmain, by rw [hmain]⟩

/-- C2 witness: a three-entry urlset is extracted to exactly its three
`loc` texts in order. -/
theorem urlset_extraction_witness :
    (get_sitemap_urls (fun _ => Except.ok (⟨[some "p1", some "p2", some "p3"], []⟩ : SitemapDoc))
        "https://e.com/sitemap.xml" false).urls = ["p1", "p2", "p3"] ∧
    (get_sitemap_urls (fun _ => Except.ok (⟨[some "p1", some "p2", some "p3"], []⟩ : SitemapDoc))
        "https://e.com/sitemap.xml" false).urls.length = 3 := by
  have h := urlset_extraction
    (fun _ => Except.ok (⟨[some "p1", some "p2", some "p3"], []⟩ : SitemapDoc))
    "https://e.com/sitemap.xml" false
    ⟨[some "p1", some "p2", some "p3"], []⟩ ["p1", "p2", "p3"]
    rfl (by decide) (by decide)
  exact ⟨h.1, by simpa using h.2⟩

/-! ## C3: top-level fetch failure -/

/-- C3 counterexample: when the top-level fetch fails, `get_sitemap_urls`
does not signal the failure to its caller; it returns the empty URL list
(the value the claim reserves for documents without recognizable
entries), the error being only logged. -/
theorem fetch_failure_returns_empty_cex :
    (get_sitemap_urls (fun _ => Except.error "boom") "https://e.com/sitemap.xml" false).urls
      = ([] : List String) ∧
    (get_sitemap_urls (fun _ => Except.error "boom") "https://e.com/sitemap.xml" false).logs
      = [(LogLevel.error, "解析sitemap时出错: boom")] ∧
    (get_sitemap_urls (fun _ => Except.error "boom") "https://e.com/sitemap.xml" false).urls
      = (get_sitemap_urls (fun _ => Except.ok (⟨[], []⟩ : SitemapDoc))
          "https://e.com/sitemap.xml" false).urls := by
  decide

/-- C3 amended: a network or HTTP failure of the top-level fetch is caught
inside `get_sitemap_urls`; the function logs the error and returns an
empty URL list, indistinguishable by its return value from a document
with no recognizable entries. -/
theorem fetch_failure_caught
    (fetch : String → Except String SitemapDoc) (u e : String) (verbose : Bool)
    (hf : fetch u = Except.error e) :
    (get_sitemap_urls fetch u verbose).urls = [] ∧
    (LogLevel.error, "解析sitemap时出错: " ++ e) ∈ (get_sitemap_urls fetch u verbose).logs := by
  unfold get_sitemap_urls
  rw [hf]
  constructor
  · rfl
  · simp

/-- C3 amended witness: concrete failing fetch. -/
theorem fetch_failure_caught_witness :
    (get_sitemap_urls (fun _ => Except.error "timeout") "https://e.com/sitemap.xml" true).urls = [] ∧
    (LogLevel.error, "解析sitemap时出错: " ++ "timeout") ∈
      (get_sitemap_urls (fun _ => Except.error "timeout") "https://e.com/sitemap.xml" true).logs :=
  fetch_failure_caught (fun _ => Except.error "timeout") "https://e.com/sitemap.xml" "timeout" true rfl

/-! ## C7: child fetch failures during index resolution -/

/-- Fetch oracle for the C7 counterexample and witness: index `"i"` with a
failing child `"c1"` and a succeeding child `"c2"`. -/
def c7Fetch : String → Except String SitemapDoc := fun s =>
  if s = "i" then Except.ok ⟨[], [some "c1", some "c2"]⟩
  else if s = "c1" then Except.error "fail"
  else Except.ok ⟨[some "x"], []⟩

/-- C7 counterexample: without `verbose`, a child fetch failure is skipped
but NOT logged: the run emits no log line at all, while the URL of the
surviving child is still returned. -/
theorem child_failure_unlogged_cex :
    (get_sitemap_urls c7Fetch "i" false).urls = ["x"] ∧
    (get_sitemap_urls c7Fetch "i" false).logs = [] := by
  decide

/-- C7 amended: during index resolution a child fetch failure is skipped
without aborting: the returned URL count is the sum of the URL counts of
the children whose fetch succeeds (failing children contribute zero), and
when verbose output is enabled the failure is logged. -/
theorem child_failure_skipped
    (fetch : String → Except String SitemapDoc) (u : String) (verbose : Bool)
    (doc : SitemapDoc) (cs : List String)
    (hf : fetch u = Except.ok doc)
    (hleaf : extractUrlLocs doc = [])
    (hcs : doc.sitemapEntries.filterMap id = cs) :
    (get_sitemap_urls fetch u verbose).urls.length =
      (cs.map (fun c =>
        match fetch c with
        | Except.ok d => (extractUrlLocs d).length
        | Except.error _ => 0)).sum ∧
    ∀ c ∈ cs, ∀ e, fetch c = Except.error e →
      childErrorLog c e ∈ (get_sitemap_urls fetch u true).logs := by
  constructor
  · have hurls : (get_sitemap_urls fetch u verbose).urls =
        cs.flatMap (fun c =>
          match fetch c with
          | Except.ok d => extractUrlLocs d
          | Except.error _ => []) := by
      unfold get_sitemap_urls
      rw [hf]
      simp only [hleaf, List.isEmpty_nil, if_true, hcs, processChildren_urls]
    rw [hurls, List.length_flatMap]
    refine congrArg List.sum (List.map_congr_left fun c _ => ?_)
    simp only [Function.comp_apply]
    cases h : fetch c <;> simp [h]
  · intro c hc e he
    unfold get_sitemap_urls
    rw [hf]
    simp only [hleaf, List.isEmpty_nil, if_true, hcs]
    simp only [ExtractResult.mk.injEq, List.mem_append]
    exact Or.inl (Or.inr (processChildren_error_logged fetch cs c e hc he))

/-- C7 amended witness: the concrete index run returns one URL (from the
surviving child), matching the per-child sum, and with verbose enabled
the error line of the failing child is present in the log. -/
theorem child_failure_skipped_witness :
    (get_sitemap_urls c7Fetch "i" false).urls.length =
      (List.map (fun c =>
        match c7Fetch c with
        | Except.ok d => (extractUrlLocs d).length
        | Except.error _ => 0) ["c1", "c2"]).sum ∧
    childErrorLog "c1" "fail" ∈ (get_sitemap_urls c7Fetch "i" true).logs := by
  have h := child_failure_skipped c7Fetch "i" false ⟨[], [some "c1", some "c2"]⟩
    ["c1", "c2"] rfl rfl (by decide)
  exact ⟨h.1, h.2 "c1" (by decide) "fail" rfl⟩

/-! ## C6: empty URL-list file -/

theorem dropWhile_eq_nil_of_forall {p : Char → Bool} {l : List Char}
    (h : ∀ c ∈ l, p c = true) : l.dropWhile p = [] := by
  induction l with
  | nil => rfl
  | cons c rest ih =>
    rw [List.dropWhile_cons, if_pos (h c (List.mem_cons_self c rest))]
    exact ih fun x hx => h x (List.mem_cons_of_mem c hx)

/-- Stripping an all-whitespace character list yields the empty list. -/
theorem pyStrip_eq_nil_of_all_ws {l : List Char}
    (h : ∀ c ∈ l, c.isWhitespace = true) : pyStrip l = [] := by
  unfold pyStrip
  rw [dropWhile_eq_nil_of_forall h]
  rfl

theorem splitWhen_cons_pos (p : Char → Bool) (a : Char) (rest : List Char)
    (h : p a = true) : splitWhen p (a :: rest) = [] :: splitWhen p rest := by
  simp [splitWhen, h]

theorem splitWhen_ne_nil (p : Char → Bool) : ∀ l, splitWhen p l ≠ [] := by
  intro l
  cases l with
  | nil => simp [splitWhen]
  | cons a rest =>
    by_cases h : p a = true
    · simp [splitWhen, h]
    · simp only [splitWhen, h]
      cases splitWhen p rest <;> simp

theorem splitWhen_cons_neg (p : Char → Bool) (a : Char) (rest : List Char)
    (q : List Char) (more : List (List Char))
    (h : ¬p a = true) (hsp : splitWhen p rest = q :: more) :
    splitWhen p (a :: rest) = (a :: q) :: more := by
  simp only [splitWhen, h, hsp]
  simp

/-- Every character of every piece of `splitWhen` comes from the input. -/
theorem splitWhen_piece_subset (p : Char → Bool) :
    ∀ l piece, piece ∈ splitWhen p l → ∀ c ∈ piece, c ∈ l := by
  intro l
  induction l with
  | nil =>
    intro piece hp c hc
    simp only [splitWhen, List.mem_singleton] at hp
    subst hp
    cases hc
  | cons a rest ih =>
    intro piece hp c hc
    by_cases hpa : p a = true
    · rw [splitWhen_cons_pos p a rest hpa, List.mem_cons] at hp
      rcases hp with rfl | hp
      · cases hc
      · exact List.mem_cons_of_mem a (ih piece hp c hc)
    · rcases hsp : splitWhen p rest with _ | ⟨q, more⟩
      · exact absurd hsp (splitWhen_ne_nil p rest)
      · rw [splitWhen_cons_neg p a rest q more hpa hsp, List.mem_cons] at hp
        rcases hp with rfl | hp
        · rcases List.mem_cons.mp hc with rfl | hcq
          · exact List.mem_cons_self c rest
          · refine List.mem_cons_of_mem a (ih q ?_ c hcq)
            rw [hsp]
            exact List.mem_cons_self q more
        · refine List.mem_cons_of_mem a (ih piece ?_ c hc)
          rw [hsp]
          exact List.mem_cons_of_mem q hp

/-- Reading an all-whitespace file content yields no URLs. -/
theorem adapterReadLines_eq_nil_of_all_ws {l : List Char}
    (h : ∀ c ∈ l, c.isWhitespace = true) : adapterReadLines l = [] := by
  unfold adapterReadLines
  have hfilter : (((splitWhen (fun c => c = '\n') l).map pyStrip).filter (fun p => p ≠ [])) = [] := by
    rw [List.filter_eq_nil_iff]
    intro piece hpiece
    rcases List.mem_map.mp hpiece with ⟨q, hq, rfl⟩
    have : pyStrip q = [] := by
      refine pyStrip_eq_nil_of_all_ws fun c hc => ?_
      exact h c (splitWhen_piece_subset (fun c => c = '\n') l q hq c hc)
    simp [this]
  rw [hfilter]
  rfl

/-- C6: when the URL-list file exists but holds only whitespace, both the
Baidu and the Bing adapter log the empty-file warning and issue no HTTP
request. -/
theorem empty_file_no_request
    (rand : Nat → Nat) (siteB tokenB pathB siteN keyN pathN content : String)
    (vB vN : Bool) (rc : Nat) (respB respN : HttpResponse)
    (hsB : siteB ≠ "") (htB : tokenB ≠ "") (hpB : pathB ≠ "")
    (hsN : siteN ≠ "") (hkN : keyN ≠ "") (hpN : pathN ≠ "")
    (hws : ∀ c ∈ content.toList, c.isWhitespace = true) :
    ((submit_to_baidu rand siteB tokenB pathB (some content) vB rc respB).request = none ∧
      (LogLevel.warning, "URL文件为空，没有URL可以提交") ∈
        (submit_to_baidu rand siteB tokenB pathB (some content) vB rc respB).logs) ∧
    ((submit_to_bing siteN keyN pathN (some content) vN respN).request = none ∧
      (LogLevel.warning, "URL文件为空，没有URL可以提交") ∈
        (submit_to_bing siteN keyN pathN (some content) vN respN).logs) := by
  have hstrip : pyStrip content.data = [] := pyStrip_eq_nil_of_all_ws hws
  have hread : adapterReadLines content.data = [] := adapterReadLines_eq_nil_of_all_ws hws
  constructor
  · constructor
    · simp [submit_to_baidu, hsB, htB, hpB, hstrip]
    · simp [submit_to_baidu, hsB, htB, hpB, hstrip]
  · constructor
    · simp [submit_to_bing, hsN, hkN, hpN, hread]
    · simp [submit_to_bing, hsN, hkN, hpN, hread]

/-- C6 witness: a file of blanks and newlines triggers the warning and no
request on both adapters. -/
theorem empty_file_no_request_witness :
    ((submit_to_baidu (fun n => n) "https://e.com" "tokn" "urls.txt" (some "  \n \n") false 0
        ⟨200, ""⟩).request = none ∧
      (LogLevel.warning, "URL文件为空，没有URL可以提交") ∈
        (submit_to_baidu (fun n => n) "https://e.com" "tokn" "urls.txt" (some "  \n \n") false 0
          ⟨200, ""⟩).logs) ∧
    ((submit_to_bing "e.com" "bingkey" "urls.txt" (some "  \n \n") false ⟨200, ""⟩).request = none ∧
      (LogLevel.warning, "URL文件为空，没有URL可以提交") ∈
        (submit_to_bing "e.com" "bingkey" "urls.txt" (some "  \n \n") false ⟨200, ""⟩).logs) :=
  empty_file_no_request (fun n => n) "https://e.com" "tokn" "urls.txt" "e.com" "bingkey"
    "urls.txt" "  \n \n" false false 0 ⟨200, ""⟩ ⟨200, ""⟩
    (by decide) (by decide) (by decide) (by decide) (by decide) (by decide) (by decide)

/-! ## C5 and C10: Baidu random sampling -/

theorem perm_get_cons_eraseIdx {α : Type} (l : List α) :
    ∀ (i : Nat) (h : i < l.length), List.Perm l (l.get ⟨i, h⟩ :: l.eraseIdx i) := by
  induction l with
  | nil => intro i h; exact absurd h (by simp)
  | cons a t ih =>
    intro i h
    cases i with
    | zero => exact List.Perm.refl _
    | succ j =>
      have hj : j < t.length := Nat.lt_of_succ_lt_succ h
      refine ((ih j hj).cons a).trans ?_
      exact List.Perm.swap _ _ _

/-- A drawn sample uses pairwise distinct positions: it is a
sub-permutation of the population (so every sampled element occurs in the
population no more often than it is sampled). -/
theorem randomSample_subperm {α : Type} (rand : Nat → Nat) :
    ∀ (k : Nat) (l : List α), List.Subperm (randomSample rand l k) l := by
  intro k
  induction k with
  | zero => intro l; simp [randomSample, List.nil_subperm]
  | succ j ih =>
    intro l
    by_cases h : 0 < l.length
    · simp only [randomSample, dif_pos h]
      have hperm := perm_get_cons_eraseIdx l (rand j % l.length) (Nat.mod_lt _ h)
      have h1 := (List.subperm_cons (l.get ⟨rand j % l.length, Nat.mod_lt _ h⟩)).mpr
        (ih (l.eraseIdx (rand j % l.length)))
      exact h1.trans hperm.symm.subperm
    · simp [randomSample, h, List.nil_subperm]

/-- When the population is large enough, the sample has exactly the
requested size. -/
theorem randomSample_length {α : Type} (rand : Nat → Nat) :
    ∀ (k : Nat) (l : List α), k ≤ l.length → (randomSample rand l k).length = k := by
  intro k
  induction k with
  | zero => intro l _; rfl
  | succ j ih =>
    intro l hk
    have h : 0 < l.length := Nat.lt_of_lt_of_le (Nat.succ_pos j) hk
    simp only [randomSample, dif_pos h, List.length_cons]
    rw [ih]
    have hlen : (l.eraseIdx (rand j % l.length)).length = l.length - 1 := by
      rw [List.length_eraseIdx, if_pos (Nat.mod_lt _ h)]
    rw [hlen]
    exact Nat.le_pred_of_lt hk

/-- C5: when `random_count > 0` and the URL list is strictly longer, the
submitted selection has exactly `random_count` elements, drawn from the
original list at pairwise distinct positions (a sub-permutation, hence no
element is submitted more often than it occurs); otherwise the full list
is submitted unchanged. -/
theorem baidu_random_sampling (rand : Nat → Nat) (k : Nat) (urls : List String) :
    (0 < k → k < urls.length →
      (baiduSelectUrls rand k urls).length = k ∧
      List.Subperm (baiduSelectUrls rand k urls) urls ∧
      ∀ u ∈ baiduSelectUrls rand k urls, u ∈ urls) ∧
    (k = 0 ∨ urls.length ≤ k → baiduSelectUrls rand k urls = urls) := by
  constructor
  · intro hk hlen
    have hsel : baiduSelectUrls rand k urls = randomSample rand urls k := by
      simp [baiduSelectUrls, hk, hlen]
    rw [hsel]
    exact ⟨randomSample_length rand k urls (Nat.le_of_lt hlen),
      randomSample_subperm rand k urls,
      fun u hu => (randomSample_subperm rand k urls).subset hu⟩
  · intro h
    rcases h with rfl | hle
    · simp [baiduSelectUrls]
    · simp [baiduSelectUrls, Nat.not_lt.mpr hle]

/-- C5 witness: sampling 2 of 3 URLs yields 2 elements forming a
sub-permutation; with `random_count = 0` the list passes unchanged. -/
theorem baidu_random_sampling_witness :
    (0 < 2 ∧ 2 < (["a", "b", "c"] : List String).length ∧
      (baiduSelectUrls (fun n => n) 2 (["a", "b", "c"] : List String)).length = 2 ∧
      List.Subperm (baiduSelectUrls (fun n => n) 2 (["a", "b", "c"] : List String))
        ["a", "b", "c"]) ∧
    baiduSelectUrls (fun n => n) 0 (["a", "b", "c"] : List String) = ["a", "b", "c"] := by
  have h1 := (baidu_random_sampling (fun n => n) 2 ["a", "b", "c"]).1 (by decide) (by decide)
  have h2 := (baidu_random_sampling (fun n => n) 0 ["a", "b", "c"]).2 (Or.inl rfl)
  exact ⟨⟨by decide, by decide, h1.1, h1.2.1⟩, h2⟩

/-- C10: the CLI default of `--random` is 10 while the function default of
`random_count` is 0; consequently a default CLI invocation on a file with
more than 10 non-blank lines submits exactly 10 sampled URLs, whereas the
function default submits the whole list. -/
theorem cli_default_samples_ten (rand : Nat → Nat) (content : List Char)
    (h : 10 < (adapterReadLines content).length) :
    submitBaiduCliRandomDefault = 10 ∧
    submitToBaiduRandomCountDefault = 0 ∧
    (baiduSelectUrls rand submitBaiduCliRandomDefault (adapterReadLines content)).length = 10 ∧
    baiduSelectUrls rand submitToBaiduRandomCountDefault (adapterReadLines content) =
      adapterReadLines content := by
  refine ⟨rfl, rfl, ?_, ?_⟩
  · have hsel : baiduSelectUrls rand submitBaiduCliRandomDefault (adapterReadLines content) =
        randomSample rand (adapterReadLines content) 10 := by
      simp [baiduSelectUrls, submitBaiduCliRandomDefault, h]
    rw [hsel]
    exact randomSample_length rand 10 _ (Nat.le_of_lt h)
  · simp [baiduSelectUrls, submitToBaiduRandomCountDefault]

/-- C10 witness: an 11-line file is sampled down to 10 URLs under the CLI
default and left whole under the function default. -/
theorem cli_default_samples_ten_witness :
    10 < (adapterReadLines ("a\nb\nc\nd\ne\nf\ng\nh\ni\nj\nk\n".toList)).length ∧
    (baiduSelectUrls (fun n => n) submitBaiduCliRandomDefault
      (adapterReadLines ("a\nb\nc\nd\ne\nf\ng\nh\ni\nj\nk\n".toList))).length = 10 ∧
    baiduSelectUrls (fun n => n) submitToBaiduRandomCountDefault
      (adapterReadLines ("a\nb\nc\nd\ne\nf\ng\nh\ni\nj\nk\n".toList)) =
      adapterReadLines ("a\nb\nc\nd\ne\nf\ng\nh\ni\nj\nk\n".toList) := by
  have h := cli_default_samples_ten (fun n => n) ("a\nb\nc\nd\ne\nf\ng\nh\ni\nj\nk\n".toList)
    (by decide)
  exact ⟨by decide, h.2.2.1, h.2.2.2⟩

/-! ## C8: Baidu site normalization -/

/-- Removing trailing slashes is taking a prefix of the input. -/
theorem dropTrailingSlashes_prefix_of (l : List Char) : dropTrailingSlashes l <+: l := by
  unfold dropTrailingSlashes
  refine List.reverse_suffix.mp ?_
  rw [List.reverse_reverse]
  exact List.dropWhile_suffix _

/-- Removing a leading scheme is taking a suffix of the input. -/
theorem stripScheme_suffix_of (l : List Char) : stripScheme l <:+ l := by
  unfold stripScheme
  split
  · exact List.drop_suffix _ _
  · split
    · exact List.drop_suffix _ _
    · exact List.suffix_refl _

theorem head?_dropWhile_neg {p : Char → Bool} : ∀ (l : List Char) (c : Char),
    (l.dropWhile p).head? = some c → p c = false := by
  intro l
  induction l with
  | nil => intro c h; cases h
  | cons a t ih =>
    intro c h
    by_cases hp : p a = true
    · rw [List.dropWhile_cons, if_pos hp] at h
      exact ih c h
    · rw [List.dropWhile_cons, if_neg hp] at h
      injection h with h
      subst h
      exact Bool.eq_false_iff.mpr hp

/-- The normalized value never ends in a slash. -/
theorem dropTrailingSlashes_getLast (l : List Char) :
    (dropTrailingSlashes l).getLast? ≠ some '/' := by
  unfold dropTrailingSlashes
  rw [List.getLast?_reverse]
  intro h
  have := head?_dropWhile_neg (p := fun c => c = '/') l.reverse '/' h
  simp at this

/-- C8 counterexample: the Baidu submission embedded in parse_sitemap.py
does not strip the scheme: on the scheme-less input `"example.com"` it
places `"https://example.com"` in the `site` parameter of the request: it
prepends a scheme. -/
theorem ps_baidu_prepends_scheme_cex :
    (ps_submit_to_baidu "example.com" "tokn" "urls.txt" (some "x\n") false
        ⟨200, ""⟩).request.map BaiduRequest.site = some "https://example.com" ∧
    List.isPrefixOf ("https://".toList) ("https://example.com".toList) = true ∧
    List.isPrefixOf ("https://".toList) ("example.com".toList) = false ∧
    List.isPrefixOf ("http://".toList) ("example.com".toList) = false := by
  decide

/-- C8 amended: the standalone Baidu adapter (submit_baidu.py) places
`submitBaiduNormalizeSite site` in the `site` parameter of the request; the
normalization strips one leading `https://` or `http://` and all trailing
slashes, and never prepends anything: the result is a contiguous infix of
the stripped input and never ends in `/`.  (The Baidu submission inside
parse_sitemap.py instead prepends `https://` to scheme-less input.) -/
theorem baidu_site_param_normalized
    (s : String) (rand : Nat → Nat) (site token path content : String)
    (v : Bool) (rc : Nat) (resp : HttpResponse) (r : BaiduRequest)
    (hs : site ≠ "") (ht : token ≠ "") (hp : path ≠ "")
    (hreq : (submit_to_baidu rand site token path (some content) v rc resp).request = some r) :
    r.site = submitBaiduNormalizeSite site ∧
    List.IsInfix (submitBaiduNormalizeSite s).toList (pyStrip s.toList) ∧
    (List.isPrefixOf ("https://".toList) (pyStrip s.toList) = true →
      (submitBaiduNormalizeSite s).toList = dropTrailingSlashes ((pyStrip s.toList).drop 8)) ∧
    (List.isPrefixOf ("https://".toList) (pyStrip s.toList) = false →
      List.isPrefixOf ("http://".toList) (pyStrip s.toList) = true →
      (submitBaiduNormalizeSite s).toList = dropTrailingSlashes ((pyStrip s.toList).drop 7)) ∧
    (List.isPrefixOf ("https://".toList) (pyStrip s.toList) = false →
      List.isPrefixOf ("http://".toList) (pyStrip s.toList) = false →
      (submitBaiduNormalizeSite s).toList = dropTrailingSlashes (pyStrip s.toList)) ∧
    (submitBaiduNormalizeSite s).toList.getLast? ≠ some '/' := by
  have hcond : ¬(site = "" ∨ token = "" ∨ path = "") := by simp [hs, ht, hp]
  have hsite : r.site = submitBaiduNormalizeSite site := by
    by_cases hemp : (pyStrip content.data).isEmpty = true
    · simp [submit_to_baidu, hcond, hemp] at hreq
    · simp [submit_to_baidu, hcond, hemp] at hreq
      rw [← hreq]
  refine ⟨hsite, ?_, ?_, ?_, ?_, ?_⟩
  · show List.IsInfix (dropTrailingSlashes (stripScheme (pyStrip s.toList))) (pyStrip s.toList)
    exact ((dropTrailingSlashes_prefix_of _).isInfix).trans ((stripScheme_suffix_of _).isInfix)
  · intro h8
    show dropTrailingSlashes (stripScheme (pyStrip s.toList)) = _
    rw [stripScheme, if_pos h8]
  · intro h8 h7
    show dropTrailingSlashes (stripScheme (pyStrip s.toList)) = _
    rw [stripScheme, if_neg (by rw [h8]; exact Bool.false_ne_true), if_pos h7]
  · intro h8 h7
    show dropTrailingSlashes (stripScheme (pyStrip s.toList)) = _
    rw [stripScheme, if_neg (by rw [h8]; exact Bool.false_ne_true),
      if_neg (by rw [h7]; exact Bool.false_ne_true)]
  · exact dropTrailingSlashes_getLast _

/-! ## C4: credential masking -/

theorem string_data_append (a b : String) : (a ++ b).data = a.data ++ b.data := rfl

theorem star3_data : ("***" : String).data = ['*', '*', '*'] := rfl

/-- A credential of length at most 8 is masked to exactly `***`. -/
theorem mask_token_short (t : String) (h : t.length ≤ 8) : mask_token t = "***" := by
  unfold mask_token
  rw [if_neg (Nat.not_lt.mpr h)]

/-- A credential of length exceeding 8 is masked to its first four
characters, three stars, and its last four characters. -/
theorem mask_token_long (t : String) (h : 8 < t.length) :
    (mask_token t).toList =
      t.toList.take 4 ++ ['*', '*', '*'] ++ t.toList.drop (t.length - 4) := by
  unfold mask_token
  rw [if_pos h]
  show (String.mk (t.toList.take 4) ++ "***" ++ String.mk (t.toList.drop (t.length - 4))).data = _
  simp [string_data_append, star3_data]

/-- C4 counterexample: masking replaces the raw credential in the logged
API URL, but the replacement can itself recreate the credential: with the
Bing API key `"**"` (masked to `"***"`), the logged API-URL line contains
the raw key `"**"` as a substring. -/
theorem credential_masking_leak_cex :
    mask_token "**" = "***" ∧
    (LogLevel.info,
        "API URL: https://ssl.bing.com/webmaster/api.svc/json/SubmitUrlbatch?apikey=***") ∈
      (submit_to_bing "example.com" "**" "urls.txt" (some "") true ⟨200, ""⟩).logs ∧
    strContainsSub
      "API URL: https://ssl.bing.com/webmaster/api.svc/json/SubmitUrlbatch?apikey=***"
      "**" = true := by
  decide

/-- C4 amended: the masked representation is exactly `***` for credentials
of length at most 8 and first4 + `***` + last4 for longer ones, and both
adapters log the API URL only after replacing every occurrence of the raw
credential by its mask — which prevents the raw credential from appearing
except when the replacement output itself recreates it (as for `"**"`). -/
theorem credential_masking
    (t siteN keyN pathN contentN siteB tokenB pathB contentB : String)
    (respN respB : HttpResponse) (rand : Nat → Nat) (rc : Nat)
    (hsN : siteN ≠ "") (hkN : keyN ≠ "") (hpN : pathN ≠ "")
    (hsB : siteB ≠ "") (htB : tokenB ≠ "") (hpB : pathB ≠ "") :
    (t.length ≤ 8 → mask_token t = "***") ∧
    (8 < t.length → (mask_token t).toList =
      t.toList.take 4 ++ ['*', '*', '*'] ++ t.toList.drop (t.length - 4)) ∧
    (LogLevel.info, "API URL: " ++ pyReplace (bingApiUrl keyN) keyN (mask_token keyN)) ∈
      (submit_to_bing siteN keyN pathN (some contentN) true respN).logs ∧
    (LogLevel.info, "API URL: " ++ pyReplace (baiduApiUrl (submitBaiduNormalizeSite siteB) tokenB)
        tokenB (mask_token tokenB)) ∈
      (submit_to_baidu rand siteB tokenB pathB (some contentB) true rc respB).logs := by
  have hcondN : ¬(siteN = "" ∨ keyN = "" ∨ pathN = "") := by simp [hsN, hkN, hpN]
  have hcondB : ¬(siteB = "" ∨ tokenB = "" ∨ pathB = "") := by simp [hsB, htB, hpB]
  refine ⟨mask_token_short t, mask_token_long t, ?_, ?_⟩
  · by_cases hemp : (adapterReadLines contentN.data).isEmpty = true
    · simp [submit_to_bing, hcondN, hemp]
    · simp [submit_to_bing, hcondN, hemp]
  · by_cases hemp : (pyStrip contentB.data).isEmpty = true
    · simp [submit_to_baidu, hcondB, hemp]
    · simp [submit_to_baidu, hcondB, hemp]

/-- C4 amended witness: concrete credentials; the short one masks to
`***`, the long one keeps only its first and last four characters, and
both adapters log the masked API-URL line. -/
theorem credential_masking_witness :
    mask_token "tok" = "***" ∧
    (mask_token "verylongtoken123").toList =
      "verylongtoken123".toList.take 4 ++ ['*', '*', '*'] ++
        "verylongtoken123".toList.drop ("verylongtoken123".length - 4) ∧
    (LogLevel.info, "API URL: " ++
        pyReplace (bingApiUrl "bingkey12345") "bingkey12345" (mask_token "bingkey12345")) ∈
      (submit_to_bing "e.com" "bingkey12345" "urls.txt" (some "u1\n") true ⟨200, ""⟩).logs ∧
    (LogLevel.info, "API URL: " ++
        pyReplace (baiduApiUrl (submitBaiduNormalizeSite "https://e.com") "verylongtoken123")
          "verylongtoken123" (mask_token "verylongtoken123")) ∈
      (submit_to_baidu (fun n => n) "https://e.com" "verylongtoken123" "urls.txt" (some "u1\n")
        true 0 ⟨200, ""⟩).logs := by
  have h := credential_masking "tok" "e.com" "bingkey12345" "urls.txt" "u1\n"
    "https://e.com" "verylongtoken123" "urls.txt" "u1\n" ⟨200, ""⟩ ⟨200, ""⟩ (fun n => n) 0
    (by decide) (by decide) (by decide) (by decide) (by decide) (by decide)
  refine ⟨h.1 (by decide), ?_, h.2.2.1, h.2.2.2⟩
  have h2 := credential_masking "verylongtoken123" "e.com" "bingkey12345" "urls.txt" "u1\n"
    "https://e.com" "verylongtoken123" "urls.txt" "u1\n" ⟨200, ""⟩ ⟨200, ""⟩ (fun n => n) 0
    (by decide) (by decide) (by decide) (by decide) (by decide) (by decide)
  exact h2.2.1 (by decide)

/-! ## C9: URL-file round trip -/

/-- Join lines with a newline separator but no trailing newline: the
stripped form of the saved file content. -/
def joinLinesL : List (List Char) → List Char
  | [] => []
  | [u] => u
  | u :: v :: t => u ++ '\n' :: joinLinesL (v :: t)

theorem joinLinesL_cons_cons (u v : List Char) (t : List (List Char)) :
    joinLinesL (u :: v :: t) = u ++ '\n' :: joinLinesL (v :: t) := rfl

theorem save_cons (x : String) (xs : List String) :
    save_urls_content (x :: xs) = x.toList ++ '\n' :: save_urls_content xs := by
  simp [save_urls_content]

theorem save_eq_joinLinesL : ∀ (urls : List String), urls ≠ [] →
    save_urls_content urls = joinLinesL (urls.map String.toList) ++ ['\n'] := by
  intro urls
  induction urls with
  | nil => intro hx; exact absurd rfl hx
  | cons u rest ih =>
    intro _
    cases rest with
    | nil => simp [save_urls_content, joinLinesL]
    | cons v t =>
      rw [save_cons, ih (by simp)]
      show u.toList ++ '\n' :: (joinLinesL (List.map String.toList (v :: t)) ++ ['\n']) =
        joinLinesL (u.toList :: List.map String.toList (v :: t)) ++ ['\n']
      rcases hm : List.map String.toList (v :: t) with _ | ⟨x, xs⟩
      · exact absurd hm (by simp)
      · rw [joinLinesL_cons_cons]
        simp

theorem joinLinesL_ne_nil (u : List Char) (us : List (List Char)) (hu : u ≠ []) :
    joinLinesL (u :: us) ≠ [] := by
  cases us with
  | nil => exact hu
  | cons v t =>
    rw [joinLinesL_cons_cons]
    simp

theorem joinLinesL_head? (u : List Char) (us : List (List Char)) (hu : u ≠ []) :
    (joinLinesL (u :: us)).head? = u.head? := by
  cases us with
  | nil => rfl
  | cons v t =>
    rw [joinLinesL_cons_cons]
    cases u with
    | nil => exact absurd rfl hu
    | cons c ct => rfl

theorem mem_of_getLast?_eq_some {α : Type} : ∀ {l : List α} {a : α},
    l.getLast? = some a → a ∈ l := by
  intro l
  induction l with
  | nil => intro a h; cases h
  | cons x t ih =>
    intro a h
    cases t with
    | nil =>
      injection h with h
      subst h
      exact List.mem_cons_self x []
    | cons y s =>
      rw [List.getLast?_cons_cons] at h
      exact List.mem_cons_of_mem x (ih h)

theorem joinLinesL_getLast? : ∀ (us : List (List Char)) (w : List Char),
    (∀ u ∈ us, u ≠ []) → us.getLast? = some w →
    (joinLinesL us).getLast? = w.getLast? := by
  intro us
  induction us with
  | nil => intro w _ hl; cases hl
  | cons u t ih =>
    intro w hne hl
    cases t with
    | nil =>
      injection hl with hl
      subst hl
      rfl
    | cons v s =>
      rw [List.getLast?_cons_cons] at hl
      rw [joinLinesL_cons_cons]
      have hJ := ih w (fun x hx => hne x (List.mem_cons_of_mem u hx)) hl
      have hvne : v ≠ [] := hne v (by simp)
      rcases hJc : joinLinesL (v :: s) with _ | ⟨x, xs⟩
      · exact absurd hJc (joinLinesL_ne_nil v s hvne)
      · rw [hJc] at hJ
        rw [List.getLast?_append_of_ne_nil u (by simp : ('\n' :: x :: xs) ≠ []),
          List.getLast?_cons_cons, hJ]

theorem dropWhile_cons_eq_self (c : Char) (t : List Char)
    (h : (c :: t).dropWhile Char.isWhitespace = c :: t) : c.isWhitespace = false := by
  by_cases hc : c.isWhitespace = true
  · rw [List.dropWhile_cons, if_pos hc] at h
    have hle : (t.dropWhile Char.isWhitespace).length ≤ t.length :=
      (List.dropWhile_suffix _).length_le
    have hlen := congrArg List.length h
    rw [List.length_cons] at hlen
    omega
  · exact Bool.eq_false_iff.mpr hc

theorem pyStrip_prefix_dropWhile (l : List Char) :
    pyStrip l <+: l.dropWhile Char.isWhitespace := by
  unfold pyStrip
  refine List.reverse_suffix.mp ?_
  rw [List.reverse_reverse]
  exact List.dropWhile_suffix _

/-- A list fixed by stripping is fixed by left whitespace removal. -/
theorem dropWhile_eq_self_of_pyStrip_eq (l : List Char) (h : pyStrip l = l) :
    l.dropWhile Char.isWhitespace = l := by
  have h1 : l <+: l.dropWhile Char.isWhitespace := by
    have hpre := pyStrip_prefix_dropWhile l
    rwa [h] at hpre
  have h2 : (l.dropWhile Char.isWhitespace).length ≤ l.length :=
    (List.dropWhile_suffix _).length_le
  exact (h1.eq_of_length (Nat.le_antisymm h1.length_le h2)).symm

/-- A list fixed by stripping is fixed by right whitespace removal. -/
theorem reverse_dropWhile_eq_self_of_pyStrip_eq (l : List Char) (h : pyStrip l = l) :
    l.reverse.dropWhile Char.isWhitespace = l.reverse := by
  have h0 := dropWhile_eq_self_of_pyStrip_eq l h
  have h' : (l.reverse.dropWhile Char.isWhitespace).reverse = l := by
    conv_rhs => rw [← h]
    unfold pyStrip
    rw [h0]
  have := congrArg List.reverse h'
  rw [List.reverse_reverse] at this
  exact this

theorem dropWhile_eq_self_of_head (l : List Char) (c : Char) (hc : l.head? = some c)
    (hw : c.isWhitespace = false) : l.dropWhile Char.isWhitespace = l := by
  cases l with
  | nil => cases hc
  | cons a t =>
    injection hc with hc
    subst hc
    rw [List.dropWhile_cons, if_neg (by rw [hw]; exact Bool.false_ne_true)]

/-- Stripping the saved file content removes exactly the final newline:
what remains is the newline-joined URL list. -/
theorem pyStrip_save (urls : List String) (hne : urls ≠ [])
    (h : ∀ u ∈ urls, u.toList ≠ [] ∧ pyStrip u.toList = u.toList) :
    pyStrip (save_urls_content urls) = joinLinesL (urls.map String.toList) := by
  rcases urls with _ | ⟨u, rest⟩
  · exact absurd rfl hne
  obtain ⟨hune, hufix⟩ := h u (by simp)
  have hsave : save_urls_content (u :: rest) =
      joinLinesL ((u :: rest).map String.toList) ++ ['\n'] := save_eq_joinLinesL _ (by simp)
  rcases hu0 : u.toList with _ | ⟨c, ct⟩
  · exact absurd hu0 hune
  have hJne : joinLinesL ((u :: rest).map String.toList) ≠ [] := by
    rw [List.map_cons]
    exact joinLinesL_ne_nil _ _ (by rw [hu0]; simp)
  have hhead : (joinLinesL ((u :: rest).map String.toList)).head? = some c := by
    rw [List.map_cons, joinLinesL_head? _ _ (by rw [hu0]; simp), hu0]
    rfl
  have hcw : c.isWhitespace = false := by
    have hfix1 := dropWhile_eq_self_of_pyStrip_eq _ hufix
    rw [hu0] at hfix1
    exact dropWhile_cons_eq_self c ct hfix1
  obtain ⟨w, hwlast, hwmem⟩ : ∃ w, (u :: rest).getLast? = some w ∧ w ∈ (u :: rest) := by
    rcases hg : (u :: rest).getLast? with _ | w
    · rw [List.getLast?_eq_none_iff] at hg
      cases hg
    · exact ⟨w, rfl, mem_of_getLast?_eq_some hg⟩
  obtain ⟨hwne, hwfix⟩ := h w hwmem
  have hJlast : (joinLinesL ((u :: rest).map String.toList)).getLast? = w.toList.getLast? := by
    refine joinLinesL_getLast? _ _ ?_ ?_
    · intro x hx
      rcases List.mem_map.mp hx with ⟨y, hy, rfl⟩
      exact (h y hy).1
    · rw [List.getLast?_map, hwlast]
      rfl
  rcases hwrev : w.toList.reverse with _ | ⟨e, et⟩
  · refine absurd ?_ hwne
    have := congrArg List.reverse hwrev
    rwa [List.reverse_reverse] at this
  have hew : e.isWhitespace = false := by
    have hrevfix := reverse_dropWhile_eq_self_of_pyStrip_eq _ hwfix
    rw [hwrev] at hrevfix
    exact dropWhile_cons_eq_self e et hrevfix
  have hwlast2 : w.toList.getLast? = some e := by
    rw [← List.head?_reverse, hwrev]
    rfl
  unfold pyStrip
  rw [hsave]
  have hstep1 : (joinLinesL ((u :: rest).map String.toList) ++ ['\n']).dropWhile
      Char.isWhitespace = joinLinesL ((u :: rest).map String.toList) ++ ['\n'] := by
    refine dropWhile_eq_self_of_head _ c ?_ hcw
    rcases hJc : joinLinesL ((u :: rest).map String.toList) with _ | ⟨x, xs⟩
    · exact absurd hJc hJne
    · rw [hJc] at hhead
      injection hhead with hh
      subst hh
      rfl
  rw [hstep1, List.reverse_append]
  have hr : (['\n'] : List Char).reverse ++
      (joinLinesL ((u :: rest).map String.toList)).reverse =
      '\n' :: (joinLinesL ((u :: rest).map String.toList)).reverse := rfl
  rw [hr, List.dropWhile_cons, if_pos (by decide)]
  have hstep2 : (joinLinesL ((u :: rest).map String.toList)).reverse.dropWhile
      Char.isWhitespace = (joinLinesL ((u :: rest).map String.toList)).reverse := by
    refine dropWhile_eq_self_of_head _ e ?_ hew
    rw [List.head?_reverse, hJlast, hwlast2]
  rw [hstep2, List.reverse_reverse]

theorem splitWhen_no_sep (p : Char → Bool) : ∀ (u : List Char),
    (∀ c ∈ u, p c = false) → splitWhen p u = [u] := by
  intro u
  induction u with
  | nil => intro _; rfl
  | cons c t ih =>
    intro h
    have hc : p c = false := h c (List.mem_cons_self c t)
    have ht := ih fun x hx => h x (List.mem_cons_of_mem c hx)
    exact splitWhen_cons_neg p c t t [] (by rw [hc]; exact Bool.false_ne_true) ht

theorem splitWhen_append_no_sep (p : Char → Bool) : ∀ (u l : List Char)
    (q : List Char) (more : List (List Char)), splitWhen p l = q :: more →
    (∀ c ∈ u, p c = false) → splitWhen p (u ++ l) = (u ++ q) :: more := by
  intro u
  induction u with
  | nil =>
    intro l q more hl _
    simpa using hl
  | cons c t ih =>
    intro l q more hl hu
    have hc : p c = false := hu c (List.mem_cons_self c t)
    have ht := ih l q more hl fun x hx => hu x (List.mem_cons_of_mem c hx)
    rw [List.cons_append]
    exact splitWhen_cons_neg p c (t ++ l) (t ++ q) more
      (by rw [hc]; exact Bool.false_ne_true) ht

/-- Splitting the saved file content at newlines yields every URL in
order followed by one trailing empty piece. -/
theorem splitWhen_save : ∀ (urls : List String),
    (∀ u ∈ urls, ∀ c ∈ u.toList, (decide (c = '\n')) = false) →
    splitWhen (fun c => c = '\n') (save_urls_content urls) =
      urls.map String.toList ++ [[]] := by
  intro urls
  induction urls with
  | nil => intro _; rfl
  | cons u rest ih =>
    intro h
    have hrest := ih fun v hv => h v (List.mem_cons_of_mem u hv)
    rw [save_cons]
    have hline := splitWhen_cons_pos (fun c => c = '\n') '\n' (save_urls_content rest)
      (by decide)
    rw [hrest] at hline
    have := splitWhen_append_no_sep (fun c => c = '\n') u.toList
      ('\n' :: save_urls_content rest) [] (rest.map String.toList ++ [[]]) hline
      (h u (List.mem_cons_self u rest))
    rw [this, List.append_nil, List.map_cons]
    rfl

/-- Splitting the newline-join of nonempty newline-free lines recovers
exactly the lines. -/
theorem splitWhen_joinLinesL : ∀ (us : List (List Char)), us ≠ [] →
    (∀ u ∈ us, ∀ c ∈ u, (decide (c = '\n')) = false) →
    splitWhen (fun c => c = '\n') (joinLinesL us) = us := by
  intro us
  induction us with
  | nil => intro hx _; exact absurd rfl hx
  | cons u t ih =>
    intro _ h
    cases t with
    | nil => exact splitWhen_no_sep _ u (h u (List.mem_cons_self u []))
    | cons v s =>
      rw [joinLinesL_cons_cons]
      have hrest := ih (by simp) fun x hx => h x (List.mem_cons_of_mem u hx)
      have hline := splitWhen_cons_pos (fun c => c = '\n') '\n' (joinLinesL (v :: s))
        (by decide)
      rw [hrest] at hline
      have := splitWhen_append_no_sep (fun c => c = '\n') u
        ('\n' :: joinLinesL (v :: s)) [] (v :: s) hline (h u (List.mem_cons_self u _))
      rw [this, List.append_nil]

theorem string_mk_toList (s : String) : String.mk s.toList = s := by
  cases s
  rfl

/-- Mapping strip, filtering blanks, and re-wrapping a piece list built of
stripped nonempty lines plus all-blank extra pieces recovers the lines. -/
theorem readLines_pieces (urls : List String) (tail : List (List Char))
    (h : ∀ u ∈ urls, u.toList ≠ [] ∧ pyStrip u.toList = u.toList)
    (htail : ∀ q ∈ tail, pyStrip q = []) :
    ((((urls.map String.toList ++ tail).map pyStrip).filter
      (fun p => p ≠ [])).map String.mk) = urls := by
  rw [List.map_append, List.filter_append]
  have hmaps : (urls.map String.toList).map pyStrip = urls.map String.toList := by
    rw [List.map_map]
    exact List.map_congr_left fun u hu => (h u hu).2
  have htails : (tail.map pyStrip).filter (fun p => p ≠ []) = [] := by
    rw [List.filter_eq_nil_iff]
    intro q hq
    rcases List.mem_map.mp hq with ⟨x, hx, rfl⟩
    simp [htail x hx]
  have hkeep : (urls.map String.toList).filter (fun p => p ≠ []) =
      urls.map String.toList := by
    rw [List.filter_eq_self]
    intro a ha
    rcases List.mem_map.mp ha with ⟨u, hu, rfl⟩
    simpa using (h u hu).1
  rw [hmaps, htails, hkeep, List.append_nil, List.map_map]
  have : (urls.map fun u => String.mk u.toList) = urls.map id :=
    List.map_congr_left fun u _ => string_mk_toList u
  rw [show String.mk ∘ String.toList = fun u => String.mk u.toList from rfl, this, List.map_id]

/-- C9 counterexample: the round trip is not the identity on arbitrary
strings: a URL with a leading blank is written verbatim but read back
stripped, by both adapters. -/
theorem url_file_roundtrip_cex :
    adapterReadLines (save_urls_content [" a"]) = ["a"] ∧
    baiduReadLines (save_urls_content [" a"]) = ["a"] ∧
    (["a"] : List String) ≠ [" a"] := by
  decide

/-- C9 amended: for every list of URL strings that are nonempty, contain
no newline, and equal their own strip (no leading or trailing
whitespace), writing them with `save_urls_to_file` and reading the file
back as either adapter does yields the same strings in the same order. -/
theorem url_file_roundtrip (urls : List String)
    (h : ∀ u ∈ urls, u.toList ≠ [] ∧ pyStrip u.toList = u.toList ∧ '\n' ∉ u.toList) :
    adapterReadLines (save_urls_content urls) = urls ∧
    baiduReadLines (save_urls_content urls) = urls := by
  have hns : ∀ u ∈ urls, ∀ c ∈ u.toList, (decide (c = '\n')) = false := by
    intro u hu c hc
    exact decide_eq_false fun hceq => (h u hu).2.2 (hceq ▸ hc)
  constructor
  · unfold adapterReadLines
    rw [splitWhen_save urls hns]
    exact readLines_pieces urls [[]] (fun u hu => ⟨(h u hu).1, (h u hu).2.1⟩)
      (by intro q hq; rw [List.mem_singleton] at hq; subst hq; rfl)
  · rcases hurls : urls with _ | ⟨u, rest⟩
    · rfl
    rw [← hurls]
    have hne : urls ≠ [] := by rw [hurls]; simp
    unfold baiduReadLines adapterReadLines
    rw [pyStrip_save urls hne (fun u hu => ⟨(h u hu).1, (h u hu).2.1⟩)]
    rw [splitWhen_joinLinesL (urls.map String.toList)
      (by rw [hurls]; simp)
      (by intro x hx c hc
          rcases List.mem_map.mp hx with ⟨y, hy, rfl⟩
          exact hns y hy c hc)]
    have := readLines_pieces urls [] (fun u hu => ⟨(h u hu).1, (h u hu).2.1⟩)
      (by intro q hq; cases hq)
    rwa [List.append_nil] at this

/-- C9 amended witness: two well-formed URLs survive the round trip on
both adapters. -/
theorem url_file_roundtrip_witness :
    adapterReadLines (save_urls_content ["https://e.com/a", "https://e.com/b"]) =
      ["https://e.com/a", "https://e.com/b"] ∧
    baiduReadLines (save_urls_content ["https://e.com/a", "https://e.com/b"]) =
      ["https://e.com/a", "https://e.com/b"] :=
  url_file_roundtrip ["https://e.com/a", "https://e.com/b"] (by decide)

/-- C8 amended witness: a concrete submission whose request carries the
scheme-stripped, slash-stripped site, and a concrete input whose
normalization is an infix of its strip and does not end in a slash. -/
theorem baidu_site_param_normalized_witness :
    (submit_to_baidu (fun n => n) "https://e.com/" "tokn2026" "urls.txt" (some "u1\n") false 0
        ⟨200, ""⟩).request = some ⟨"e.com", "tokn2026",
        "http://data.zz.baidu.com/urls?site=e.com&token=tokn2026", "u1"⟩ ∧
    ("e.com" : String) = submitBaiduNormalizeSite "https://e.com/" ∧
    List.IsInfix (submitBaiduNormalizeSite " https://E.com//").toList
      (pyStrip " https://E.com//".toList) ∧
    (submitBaiduNormalizeSite " https://E.com//").toList.getLast? ≠ some '/' := by
  have hreq : (submit_to_baidu (fun n => n) "https://e.com/" "tokn2026" "urls.txt" (some "u1\n")
      false 0 ⟨200, ""⟩).request = some ⟨"e.com", "tokn2026",
      "http://data.zz.baidu.com/urls?site=e.com&token=tokn2026", "u1"⟩ := by decide
  have h := baidu_site_param_normalized " https://E.com//" (fun n => n) "https://e.com/"
    "tokn2026" "urls.txt" "u1\n" false 0 ⟨200, ""⟩ _
    (by decide) (by decide) (by decide) hreq
  exact ⟨hreq, h.1, h.2.1, h.2.2.2.2.2⟩
